import Mathlib

/-!
Verification development for the `logs` package: an in-process leveled
logging facility with a bounded message queue, a registry of adapter
constructors, level filtering, and a fan-out dispatch/close path.
All definitions below are shallow embeddings of the Go source in
`log.go` and `l.go`.
-/

namespace Logs

/-! ## Severity levels (RFC5424-style constants from the source) -/

def LevelError : Nat := 0
def LevelWarn : Nat := 1
def LevelInfo : Nat := 2
def LevelDebug : Nat := 3

/-! ## Runtime values passed to the variadic emit operations

A `Val` models a Go `interface{}` argument as the logging core observes
it: either an atom (any non-slice value, carrying whether it implements
the `errors.ErrCode` capability, its stack trace when it does, and its
default `%v` textual representation), or a `[]interface{}` sequence.
A `[]interface{}` value itself can never implement `ErrCode` (the type
has no method set), which the `atom`/`seq` split captures. -/

inductive Val where
  | atom (isErr : Bool) (trace : String) (repr : String)
  | seq (elems : List Val)

/-- Success of the type assertion to the ErrCode interface, as a
Boolean. -/
def isErrCode : Val → Bool
  | .atom e _ _ => e
  | .seq _ => false

/-- Result of calling StackTrace on a value (only meaningful on
err-atoms; a sequence never reaches it). -/
def stackTraceOf : Val → String
  | .atom _ t _ => t
  | .seq _ => ""

/-- Source function handleError: if the value is an ErrCode, return its
stack trace appended to the empty string, else the empty string. -/
def handleError (v : Val) : String :=
  if isErrCode v then stackTraceOf v else ""

-- Source function `rotate`.  The Go loop `for _, item = range items`
-- reassigns the function parameter `item`; when no recursive call yields
-- an `ErrCode`, the function returns the last element assigned (or the
-- original slice when the slice is empty).  `rotateSeq cur l` models the
-- loop with `cur` the current value of `item`.
mutual
def rotate : Val → Val
  | .atom e t r => .atom e t r
  | .seq l => rotateSeq (.seq l) l
def rotateSeq (cur : Val) : List Val → Val
  | [] => cur
  | x :: xs =>
      if isErrCode (rotate x) then rotate x else rotateSeq x xs
end

-- Default textual (%v) rendering of a value by the Go fmt package: atoms
-- print their own representation; an interface slice prints its elements
-- separated by single spaces inside square brackets.
mutual
def goRepr : Val → String
  | .atom _ _ r => r
  | .seq l => "[" ++ goReprList l ++ "]"
def goReprList : List Val → String
  | [] => ""
  | [x] => goRepr x
  | x :: y :: xs => goRepr x ++ " " ++ goReprList (y :: xs)
end

/-! ## Message formatting (source functions generateFmtStr and log) -/

/-- Source function generateFmtStr: strings.Repeat of the two-character
verb plus one space, n times. -/
def generateFmtStr : Nat → String
  | 0 => ""
  | n + 1 => "%v " ++ generateFmtStr n

/-- Semantics of fmt.Sprintf restricted to the formats the source
builds (literal text interleaved with default verbs, argument count
matching the verb count): each occurrence of the verb consumes the next
argument and prints its default representation. -/
def sprintfChars : List Char → List Val → List Char
  | '%' :: 'v' :: rest, a :: args => (goRepr a).data ++ sprintfChars rest args
  | c :: rest, args => c :: sprintfChars rest args
  | [], _ => []

/-- String-level wrapper for the Sprintf model. -/
def sprintf (fmt : String) (args : List Val) : String :=
  String.mk (sprintfChars fmt.data args)

/-- Message body computed by the source function log before stack-trace
appending.  The exported emit methods Error/Warn/Info/Debug call log
passing their variadic slice v as a single value, so inside log the
variadic list has exactly one element: the sequence of arguments given
by the caller. -/
def logBody (tp : String) (args : List Val) : String :=
  let v : List Val := [Val.seq args]
  sprintf ("[" ++ tp ++ "] " ++ generateFmtStr v.length) v

/-- Full message computed by the source function log: the body, then
the stack trace returned by handleError on the rotated argument list,
appended on a new line when non-empty. -/
def logRender (tp : String) (args : List Val) : String :=
  let msg := logBody tp args
  let stack := handleError (rotate (Val.seq [Val.seq args]))
  if stack ≠ "" then msg ++ "\n" ++ stack else msg

/-- Joining a list of strings with single-space separation. -/
def joinSpace : List String → String
  | [] => ""
  | [x] => x
  | x :: y :: xs => x ++ " " ++ joinSpace (y :: xs)

/-- Rendering as the specification words it: a bracketed tag naming the
level followed by the default textual representations of the arguments
joined with single-space separation. -/
def specRenderBody (tp : String) (args : List Val) : String :=
  "[" ++ tp ++ "] " ++ joinSpace (args.map goRepr)

-- Depth-first search the specification describes for the
-- structured-error extraction: an atom is found when it exposes the
-- ErrCode capability; a sequence is searched element by element in
-- order, descending into nested sequences.
mutual
def specFirstErr : Val → Option Val
  | .atom e t r => if e then some (.atom e t r) else none
  | .seq l => specFirstErrList l
def specFirstErrList : List Val → Option Val
  | [] => none
  | x :: xs =>
      match specFirstErr x with
      | some e => some e
      | none => specFirstErrList xs
end

/-! ## Logger state and operations -/

/-- A queued log message (source struct logMsg). -/
structure LogMsgRec where
  level : Nat
  msg : String
deriving DecidableEq, Repr

/-- An adapter instance as stored in the outputs map; the recorded field
is the outcome of the Init call the instance received. -/
structure AdapterInst where
  initErr : Option String
deriving DecidableEq, Repr

/-- A registered adapter constructor (source type loggerType together
with the Init behavior of the instances it constructs): the error Init
returns, as a function of the config string. -/
structure AdapterCtor where
  initErr : String → Option String

/-- Source function Register: panics (modelled as Except.error) when the
constructor is nil or the name is already registered; otherwise stores
the constructor under the name.  The source performs no check on the
name itself. -/
def Register (reg : List (String × AdapterCtor)) (name : String)
    (log : Option AdapterCtor) : Except String (List (String × AdapterCtor)) :=
  match log with
  | none => .error "logs: Register provide is nil"
  | some c =>
      if (reg.lookup name).isSome then
        .error ("logs: Register called twice for provider " ++ name)
      else
        .ok (reg ++ [(name, c)])

/-- State of a Logger (source struct Logger; the mutex is not modelled,
and the channel is modelled as the FIFO list of buffered messages
together with its fixed capacity). -/
structure LoggerState where
  level : Nat
  enableFuncCallDepth : Bool
  loggerFuncCallDepth : Nat
  queueCap : Nat
  queue : List LogMsgRec
  outputs : List (String × AdapterInst)
  workerStarted : Bool
deriving DecidableEq, Repr

/-- Go map assignment on the outputs association list: replace the entry
when the key is present, append it otherwise. -/
def mapSet (m : List (String × AdapterInst)) (k : String) (v : AdapterInst) :
    List (String × AdapterInst) :=
  if (m.lookup k).isSome then
    m.map (fun p => if p.1 = k then (k, v) else p)
  else m ++ [(k, v)]

/-- Go map deletion on the outputs association list. -/
def mapDel (m : List (String × AdapterInst)) (k : String) :
    List (String × AdapterInst) :=
  m.filter (fun p => p.1 ≠ k)

/-- Source method SetLogger: look up the adapter constructor; when
present, construct an instance, call Init with the config, store the
instance in outputs before the error check, and return the Init error
when there was one; when the name is not registered, return an
unknown-adaptername error and change nothing. -/
def SetLogger (reg : List (String × AdapterCtor)) (s : LoggerState)
    (adaptername config : String) : LoggerState × Option String :=
  match reg.lookup adaptername with
  | some ctor =>
      let err := ctor.initErr config
      ({ s with outputs := mapSet s.outputs adaptername ⟨err⟩ }, err)
  | none =>
      (s, some ("logs: unknown adaptername " ++ adaptername
        ++ " (forgotten Register?)"))

/-- Source method DelLogger: destroy and remove the named adapter when
present, otherwise return an unknown-adaptername error. -/
def DelLogger (s : LoggerState) (adaptername : String) :
    LoggerState × Option String :=
  match s.outputs.lookup adaptername with
  | some _ => ({ s with outputs := mapDel s.outputs adaptername }, none)
  | none =>
      (s, some ("logs: unknown adaptername " ++ adaptername
        ++ " (forgotten Register?)"))

/-- Basename extraction performed via path.Split: the part of the file
path after the final slash. -/
def pathSplitFile (file : String) : String :=
  (file.splitOn "/").getLastD file

/-- Source method writerMsg.  The caller argument models the result of
runtime.Caller(bl.loggerFuncCallDepth): some (file, line) in the ok
case.  When the message level passes the threshold the message is
appended at the back of the FIFO queue (the capacity blocking of the
channel send is modelled by the Step relation below). -/
def writerMsg (s : LoggerState) (loglevel : Nat) (msg : String)
    (caller : Option (String × Nat)) : LoggerState :=
  if loglevel > s.level then s
  else
    let m :=
      if s.enableFuncCallDepth then
        match caller with
        | some (file, line) =>
            "[" ++ pathSplitFile file ++ ":" ++ toString line ++ "] " ++ msg
        | none => msg
      else msg
    { s with queue := s.queue ++ [{ level := loglevel, msg := m }] }

/-- Modelled from the spec: the console adapter implementation is not
among the given source files (it lives in a separate adapter file of
this repository); per the spec it registers itself under the name
console at startup and its initialize accepts any config string. -/
def consoleCtor : AdapterCtor := { initErr := fun _ => none }

/-- The adapter registry as populated at startup: holds the console
constructor (modelled from the spec, see consoleCtor). -/
def defaultRegistry : List (String × AdapterCtor) := [("console", consoleCtor)]

/-- Source function NewLogger: threshold Debug, caller depth 2, caller
annotation enabled, a fresh queue of the given capacity, empty outputs;
then SetLogger("console", "") attaches the default console adapter and
the dispatch worker goroutine is started. -/
def NewLogger (reg : List (String × AdapterCtor)) (channellen : Nat) :
    LoggerState :=
  let s0 : LoggerState :=
    { level := LevelDebug
      enableFuncCallDepth := true
      loggerFuncCallDepth := 2
      queueCap := channellen
      queue := []
      outputs := []
      workerStarted := false }
  let s1 := (SetLogger reg s0 "console" "").1
  { s1 with workerStarted := true }

/-- One adapter call observable from outside the Logger. -/
inductive Event where
  | write (adapter : String) (msg : String) (level : Nat)
  | flush (adapter : String)
  | destroy (adapter : String)
deriving DecidableEq, Repr

/-- Drain loop of the source method Close: while the channel is
non-empty, receive one message and write it to every output. -/
def closeDrain (outputs : List (String × AdapterInst)) :
    List LogMsgRec → List Event
  | [] => []
  | m :: rest =>
      outputs.map (fun o => Event.write o.1 m.msg m.level)
        ++ closeDrain outputs rest

/-- Finalization loop of the source method Close: flush then destroy
each output in turn. -/
def closeFinal : List (String × AdapterInst) → List Event
  | [] => []
  | o :: os => Event.flush o.1 :: Event.destroy o.1 :: closeFinal os

/-- Source method Close: drain the queue, writing each remaining message
to every output, then flush and destroy every output.  Returns the state
after the call together with the list of adapter calls performed, in
order. -/
def Close (s : LoggerState) : LoggerState × List Event :=
  ({ s with queue := [] },
    closeDrain s.outputs s.queue ++ closeFinal s.outputs)

/-- Whether an event is the flush or the destroy call of the named
adapter. -/
def isLifeOf (a : String) (e : Event) : Bool :=
  e == Event.flush a || e == Event.destroy a

/-- A non-nil Go value passed to Pretty: its dynamic type name and the
output of json.MarshalIndent on it with a one-space prefix and two-space
indent. -/
structure PrettyVal where
  typeName : String
  jsonIndent : String
deriving DecidableEq, Repr

/-- Result of json.MarshalIndent on a possibly-nil value (a nil value
marshals to null; the source discards the error). -/
def marshalIndent : Option PrettyVal → String
  | none => "null"
  | some p => p.jsonIndent

/-- Source method pretty.  A none argument models a nil interface value:
reflect.TypeOf on it returns a nil Type and calling String() on that nil
Type panics, modelled as the none result.  On success the result is the
single Debug-level writerMsg call the method performs (level and message
text). -/
def pretty (message : String) (v : Option PrettyVal) : Option (Nat × String) :=
  let b := marshalIndent v
  if message = "" then
    match v with
    | none => none
    | some p => some (LevelDebug, "[Pretty]\n" ++ p.typeName ++ "\n" ++ b)
  else
    some (LevelDebug, "[Pretty]\n" ++ message ++ "\n" ++ b)

/-- Projection of an event stream to the write calls received by one
adapter, keeping message text and level. -/
def writesTo (a : String) : Event → Option (String × Nat)
  | .write a2 m l => if a2 = a then some (m, l) else none
  | .flush _ => none
  | .destroy _ => none

/-- The messages a writerMsg call appends beyond the queue it started
from: empty when the call is filtered out, otherwise the one formatted
message it enqueues. -/
def emittedBy (s : LoggerState) (loglevel : Nat) (msg : String)
    (caller : Option (String × Nat)) : List LogMsgRec :=
  (writerMsg s loglevel msg caller).queue.drop s.queue.length

/-! ## Transition system of a Logger -/

/-- Labels of the Logger transition system, one per mutating operation
of the source. -/
inductive StepLabel where
  | emit (m : LogMsgRec)
  | dispatch
  | setLevel (l : Nat)
  | setDepth (d : Nat)
  | enableDepth (b : Bool)
  | setAdapter (name config : String)
  | delAdapter (name : String)
  | close
deriving DecidableEq, Repr

/-- Small-step transition relation of a Logger.  The emit step models
the channel send performed by writerMsg: a send on a buffered channel is
enabled only while the buffer holds fewer than queueCap messages, so a
full queue blocks the emitter until a dispatch step frees a slot; the
dispatch step models the worker receiving one message from the front. -/
inductive Step (reg : List (String × AdapterCtor)) :
    LoggerState → StepLabel → LoggerState → Prop where
  | emit (s : LoggerState) (m : LogMsgRec)
      (hroom : s.queue.length < s.queueCap) :
      Step reg s (.emit m) { s with queue := s.queue ++ [m] }
  | dispatch (s : LoggerState) (m : LogMsgRec) (rest : List LogMsgRec)
      (hq : s.queue = m :: rest) :
      Step reg s .dispatch { s with queue := rest }
  | setLevel (s : LoggerState) (l : Nat) :
      Step reg s (.setLevel l) { s with level := l }
  | setDepth (s : LoggerState) (d : Nat) :
      Step reg s (.setDepth d) { s with loggerFuncCallDepth := d }
  | enableDepth (s : LoggerState) (b : Bool) :
      Step reg s (.enableDepth b) { s with enableFuncCallDepth := b }
  | setAdapter (s : LoggerState) (name config : String) :
      Step reg s (.setAdapter name config) (SetLogger reg s name config).1
  | delAdapter (s : LoggerState) (name : String) :
      Step reg s (.delAdapter name) (DelLogger s name).1
  | close (s : LoggerState) :
      Step reg s .close (Close s).1

/-- A small concrete logger state used to instantiate theorems with
hypotheses on concrete inputs. -/
def sampleState : LoggerState :=
  { level := 1
    enableFuncCallDepth := false
    loggerFuncCallDepth := 2
    queueCap := 4
    queue := []
    outputs := [("console", ⟨none⟩)]
    workerStarted := true }

/-- A concrete logger state with two adapters and two queued messages. -/
def sampleCloseState : LoggerState :=
  { level := 3
    enableFuncCallDepth := true
    loggerFuncCallDepth := 2
    queueCap := 8
    queue := [{ level := 0, msg := "m1" }, { level := 2, msg := "m2" }]
    outputs := [("console", ⟨none⟩), ("file", ⟨none⟩)]
    workerStarted := true }

/-- A constructor whose instances fail initialization, to exercise the
retained-despite-init-failure path. -/
def failingCtor : AdapterCtor := { initErr := fun _ => some "init failed" }

/-- A registry holding the failing constructor. -/
def failRegistry : List (String × AdapterCtor) := [("bad", failingCtor)]

/-- A concrete logger state whose queue is at capacity. -/
def sampleFullState : LoggerState :=
  { level := 3
    enableFuncCallDepth := false
    loggerFuncCallDepth := 2
    queueCap := 1
    queue := [{ level := 0, msg := "m" }]
    outputs := []
    workerStarted := true }

/-! ## Theorems -/

theorem writerMsg_filtered (s : LoggerState) (loglevel : Nat) (msg : String)
    (caller : Option (String × Nat)) (h : s.level < loglevel) :
    writerMsg s loglevel msg caller = s := by
  unfold writerMsg
  simp [h]

theorem writerMsg_enqueues (s : LoggerState) (loglevel : Nat) (msg : String)
    (caller : Option (String × Nat)) (h : loglevel ≤ s.level) :
    ∃ m, (writerMsg s loglevel msg caller).queue = s.queue ++ [m] := by
  unfold writerMsg
  simp [Nat.not_lt.mpr h]

/-- C1: for every severity S among Error, Warn, Info, Debug and every
threshold set on a Logger, a writerMsg call at severity S enqueues a
message onto the queue if and only if S is at least as severe as the
threshold (numerically S at most the threshold, Error = 0 most severe);
when S is less urgent the call enqueues nothing and leaves the state
unchanged. -/
theorem emit_enqueue_iff_severity (s : LoggerState) (S : Nat) (msg : String)
    (caller : Option (String × Nat)) (_hS : S ≤ LevelDebug) :
    ((∃ m, (writerMsg s S msg caller).queue = s.queue ++ [m]) ↔ S ≤ s.level)
    ∧ (s.level < S → writerMsg s S msg caller = s) := by
  refine ⟨⟨?_, ?_⟩, ?_⟩
  · rintro ⟨m, hm⟩
    by_contra hlt
    push_neg at hlt
    rw [writerMsg_filtered s S msg caller hlt] at hm
    have hlen := congrArg List.length hm
    simp at hlen
  · intro h
    exact writerMsg_enqueues s S msg caller h
  · intro h
    exact writerMsg_filtered s S msg caller h

/-- Witness for C1 at a concrete logger (threshold Warn) and severity
Info. -/
theorem emit_enqueue_iff_severity_witness :
    ((∃ m, (writerMsg sampleState 2 "msg" none).queue = sampleState.queue ++ [m])
      ↔ 2 ≤ sampleState.level)
    ∧ (sampleState.level < 2 → writerMsg sampleState 2 "msg" none = sampleState) :=
  emit_enqueue_iff_severity sampleState 2 "msg" none (by decide)

/-- C4: NewLogger returns a Logger whose threshold is Debug, whose
caller depth is 2, whose caller annotation flag is enabled, whose
adapter set contains the default console adapter, whose queue capacity
is the given value, and whose dispatch worker has been started. -/
theorem newLogger_defaults (n : Nat) :
    (NewLogger defaultRegistry n).level = LevelDebug
    ∧ (NewLogger defaultRegistry n).loggerFuncCallDepth = 2
    ∧ (NewLogger defaultRegistry n).enableFuncCallDepth = true
    ∧ (NewLogger defaultRegistry n).outputs.lookup "console"
        = some { initErr := none }
    ∧ (NewLogger defaultRegistry n).queueCap = n
    ∧ (NewLogger defaultRegistry n).workerStarted = true :=
  ⟨rfl, rfl, rfl, rfl, rfl, rfl⟩

theorem lookup_cons_self {β : Type} (a : String) (b : β) (l : List (String × β)) :
    List.lookup a ((a, b) :: l) = some b := by
  simp [List.lookup]

theorem lookup_cons_ne {β : Type} (a k : String) (b : β) (l : List (String × β))
    (h : a ≠ k) : List.lookup a ((k, b) :: l) = List.lookup a l := by
  have hb : (a == k) = false := beq_eq_false_iff_ne.mpr h
  simp [List.lookup, hb]

theorem lookup_map_update (m : List (String × AdapterInst)) (k : String)
    (v : AdapterInst) (h : (m.lookup k).isSome) :
    (m.map fun p => if p.1 = k then (k, v) else p).lookup k = some v := by
  induction m with
  | nil => simp [List.lookup] at h
  | cons p ps ih =>
    obtain ⟨pk, pv⟩ := p
    by_cases hk : pk = k
    · have hhead : (if (pk, pv).1 = k then (k, v) else (pk, pv)) = (k, v) := by
        simp [hk]
      simp only [List.map_cons, hhead]
      exact lookup_cons_self k v _
    · have hhead : (if (pk, pv).1 = k then (k, v) else (pk, pv)) = (pk, pv) := by
        simp [hk]
      simp only [List.map_cons, hhead]
      rw [lookup_cons_ne k pk pv _ (Ne.symm hk)]
      apply ih
      rw [lookup_cons_ne k pk pv ps (Ne.symm hk)] at h
      exact h

theorem lookup_append_new {β : Type} (m : List (String × β)) (k : String)
    (v : β) (h : m.lookup k = none) :
    (m ++ [(k, v)]).lookup k = some v := by
  induction m with
  | nil => exact lookup_cons_self k v []
  | cons p ps ih =>
    obtain ⟨pk, pv⟩ := p
    by_cases hk : k = pk
    · subst hk
      rw [lookup_cons_self] at h
      cases h
    · rw [List.cons_append, lookup_cons_ne k pk pv _ hk]
      apply ih
      rw [lookup_cons_ne k pk pv ps hk] at h
      exact h

theorem lookup_mapSet (m : List (String × AdapterInst)) (k : String)
    (v : AdapterInst) : (mapSet m k v).lookup k = some v := by
  unfold mapSet
  by_cases h : (m.lookup k).isSome
  · simp only [h, if_true]
    exact lookup_map_update m k v h
  · simp only [h, if_false]
    exact lookup_append_new m k v (by
      cases hm : m.lookup k
      · rfl
      · simp [hm] at h)

/-- C5: for a registered adapter name, SetLogger stores the constructed
instance in the active adapter set under that name regardless of the
outcome of its initialization, and returns exactly the initialization
error (the error when Init failed, nil when it succeeded). -/
theorem setLogger_stores_and_returns (reg : List (String × AdapterCtor))
    (s : LoggerState) (name config : String) (ctor : AdapterCtor)
    (hreg : reg.lookup name = some ctor) :
    (SetLogger reg s name config).1.outputs.lookup name
      = some { initErr := ctor.initErr config }
    ∧ (SetLogger reg s name config).2 = ctor.initErr config := by
  unfold SetLogger
  rw [hreg]
  cases h : ctor.initErr config <;>
    simp [h, lookup_mapSet]

/-- Witness for C5: a failing initialization stores the adapter and
returns its error. -/
theorem setLogger_stores_and_returns_witness :
    (SetLogger failRegistry sampleState "bad" "cfg").1.outputs.lookup "bad"
      = some { initErr := failingCtor.initErr "cfg" }
    ∧ (SetLogger failRegistry sampleState "bad" "cfg").2
      = failingCtor.initErr "cfg" :=
  setLogger_stores_and_returns failRegistry sampleState "bad" "cfg"
    failingCtor (by rfl)

/-- C6 counterexample: registering the empty name with a non-nil
constructor on an empty registry succeeds instead of failing fatally, so
the emptiness condition in the claim does not hold on the code. -/
theorem register_empty_name_succeeds :
    Register [] "" (some consoleCtor) = .ok [("", consoleCtor)] := rfl

/-- C6 amended: Register fails fatally (panics) exactly when the
constructor is nil or the name is already registered; the source checks
nothing about the name itself, so an empty name registers like any
other.  A first registration of a fresh name with a non-nil constructor
succeeds and makes the constructor retrievable by lookup, and a second
registration of the same name panics. -/
theorem register_contract (reg : List (String × AdapterCtor)) (name : String)
    (ctor : Option AdapterCtor) :
    ((∃ r, Register reg name ctor = .ok r)
      ↔ ctor.isSome ∧ reg.lookup name = none)
    ∧ (∀ c, ctor = some c → reg.lookup name = none →
        Register reg name ctor = .ok (reg ++ [(name, c)])
        ∧ (reg ++ [(name, c)]).lookup name = some c
        ∧ ∀ r2, Register (reg ++ [(name, c)]) name ctor ≠ .ok r2) := by
  constructor
  · cases ctor with
    | none =>
      simp [Register]
    | some c =>
      unfold Register
      by_cases h : (reg.lookup name).isSome
      · rcases hm : reg.lookup name with _ | c2
        · simp [hm] at h
        · simp [hm, Option.isSome] at h ⊢
      · rcases hm : reg.lookup name with _ | c2
        · simp [hm]
        · simp [hm] at h
  · intro c hc hnew
    subst hc
    refine ⟨?_, lookup_append_new reg name c hnew, ?_⟩
    · simp [Register, hnew]
    · intro r2
      have hdup := lookup_append_new reg name c hnew
      simp [Register, hdup]

/-- Witness for C6 amended: first registration of the name console
succeeds and is retrievable, the second one faults. -/
theorem register_contract_witness :
    Register [] "console" (some consoleCtor)
      = .ok ([] ++ [("console", consoleCtor)])
    ∧ ([] ++ [("console", consoleCtor)]).lookup "console" = some consoleCtor
    ∧ ∀ r2, Register ([] ++ [("console", consoleCtor)]) "console"
        (some consoleCtor) ≠ .ok r2 :=
  (register_contract [] "console" (some consoleCtor)).2 consoleCtor rfl rfl

/-- C10: pretty is partial exactly at an empty message with a nil value
(resolving the runtime type of nil has no result, so the call panics);
with a non-empty message or a non-nil value it returns normally and
performs one Debug-level emit. -/
theorem pretty_partial_at_empty_nil :
    pretty "" none = none
    ∧ (∀ (message : String) (v : Option PrettyVal), message ≠ "" ∨ v ≠ none →
        ∃ m, pretty message v = some (LevelDebug, m)) := by
  refine ⟨rfl, ?_⟩
  intro message v h
  unfold pretty
  by_cases hm : message = ""
  · subst hm
    cases v with
    | none =>
      rcases h with h | h
      · exact absurd rfl h
      · exact absurd rfl h
    | some p => simp
  · simp [hm]

/-- Witness for C10: a non-empty message with a nil value emits. -/
theorem pretty_partial_at_empty_nil_witness :
    ∃ m, pretty "hello" none = some (LevelDebug, m) :=
  pretty_partial_at_empty_nil.2 "hello" none (Or.inl (by decide))

/-- C9: Close leaves the adapter map, the threshold, the caller depth,
the annotation flag and the worker flag untouched (adapters are
destroyed but never removed), and a subsequent writerMsg call appends
exactly the messages it would have appended before the call. -/
theorem close_frame (s : LoggerState) :
    (Close s).1.outputs = s.outputs
    ∧ (Close s).1.level = s.level
    ∧ (Close s).1.enableFuncCallDepth = s.enableFuncCallDepth
    ∧ (Close s).1.loggerFuncCallDepth = s.loggerFuncCallDepth
    ∧ (Close s).1.queueCap = s.queueCap
    ∧ (Close s).1.workerStarted = s.workerStarted
    ∧ ∀ (loglevel : Nat) (msg : String) (caller : Option (String × Nat)),
        emittedBy (Close s).1 loglevel msg caller
          = emittedBy s loglevel msg caller := by
  refine ⟨rfl, rfl, rfl, rfl, rfl, rfl, ?_⟩
  intro loglevel msg caller
  unfold emittedBy writerMsg Close
  by_cases h : s.level < loglevel
  · simp [h, List.drop_length]
  · simp [h, List.drop_length, List.drop_left]

theorem setLogger_queueCap (reg : List (String × AdapterCtor))
    (s : LoggerState) (name config : String) :
    (SetLogger reg s name config).1.queueCap = s.queueCap := by
  unfold SetLogger
  cases reg.lookup name with
  | none => rfl
  | some ctor => rfl

theorem delLogger_queueCap (s : LoggerState) (name : String) :
    (DelLogger s name).1.queueCap = s.queueCap := by
  unfold DelLogger
  cases s.outputs.lookup name <;> rfl

/-- C7: the queue capacity equals the value given at construction and is
preserved by every step of the transition system, and an emit against a
full queue never drops the message: no emit transition is enabled at a
full queue (the channel send blocks), while after a dispatch step frees
a slot the emit transition is enabled and appends the message at the
back of the queue; below capacity the emit transition likewise appends
the message. -/
theorem queue_capacity_fixed_and_backpressure
    (reg : List (String × AdapterCtor)) :
    (∀ n, (NewLogger reg n).queueCap = n)
    ∧ (∀ s lab s2, Step reg s lab s2 → s2.queueCap = s.queueCap)
    ∧ (∀ s (m : LogMsgRec), s.queue.length < s.queueCap →
        Step reg s (.emit m) { s with queue := s.queue ++ [m] })
    ∧ (∀ s (m : LogMsgRec) s2, s.queue.length = s.queueCap →
        ¬ Step reg s (.emit m) s2)
    ∧ (∀ s s2 (m : LogMsgRec), s.queue.length = s.queueCap →
        Step reg s .dispatch s2 →
        Step reg s2 (.emit m) { s2 with queue := s2.queue ++ [m] }) := by
  refine ⟨?_, ?_, ?_, ?_, ?_⟩
  · intro n
    show (SetLogger reg _ "console" "").1.queueCap = n
    rw [setLogger_queueCap]
  · intro s lab s2 hstep
    cases hstep with
    | emit m hroom => rfl
    | dispatch m rest hq => rfl
    | setLevel l => rfl
    | setDepth d => rfl
    | enableDepth b => rfl
    | setAdapter name config => exact setLogger_queueCap reg s name config
    | delAdapter name => exact delLogger_queueCap s name
    | close => rfl
  · intro s m hroom
    exact Step.emit s m hroom
  · intro s m s2 hfull hstep
    cases hstep with
    | emit hroom => omega
  · intro s s2 m hfull hstep
    cases hstep with
    | dispatch m2 rest hq =>
      have hlen : s.queue.length = rest.length + 1 := by rw [hq]; rfl
      have hlt : rest.length < s.queueCap := by omega
      exact Step.emit { s with queue := rest } m hlt

/-- Witness for C7: at a logger whose queue is at its capacity of one,
no emit transition is enabled. -/
theorem queue_capacity_fixed_and_backpressure_witness :
    ¬ Step defaultRegistry sampleFullState
        (.emit { level := 0, msg := "x" }) sampleFullState :=
  (queue_capacity_fixed_and_backpressure defaultRegistry).2.2.2.1
    sampleFullState { level := 0, msg := "x" } sampleFullState (by rfl)

theorem closeDrain_writes (outs : List (String × AdapterInst))
    (q : List LogMsgRec) :
    ∀ e ∈ closeDrain outs q, ∃ a m l, e = Event.write a m l := by
  induction q with
  | nil => intro e he; cases he
  | cons m q ih =>
    intro e he
    rw [closeDrain, List.mem_append] at he
    rcases he with he | he
    · obtain ⟨o, _, rfl⟩ := List.mem_map.mp he
      exact ⟨o.1, m.msg, m.level, rfl⟩
    · exact ih e he

theorem closeFinal_life (outs : List (String × AdapterInst)) :
    ∀ e ∈ closeFinal outs,
      (∃ a, e = Event.flush a) ∨ (∃ a, e = Event.destroy a) := by
  induction outs with
  | nil => intro e he; cases he
  | cons o os ih =>
    intro e he
    rw [closeFinal, List.mem_cons, List.mem_cons] at he
    rcases he with rfl | rfl | he
    · exact Or.inl ⟨o.1, rfl⟩
    · exact Or.inr ⟨o.1, rfl⟩
    · exact ih e he

theorem row_filterMap_notmem (a : String) (outs : List (String × AdapterInst))
    (m : LogMsgRec) (h : a ∉ outs.map Prod.fst) :
    (outs.map fun o => Event.write o.1 m.msg m.level).filterMap (writesTo a)
      = [] := by
  induction outs with
  | nil => rfl
  | cons o os ih =>
    rw [List.map_cons, List.mem_cons] at h
    push_neg at h
    obtain ⟨h1, h2⟩ := h
    rw [List.map_cons, List.filterMap_cons]
    have : writesTo a (Event.write o.1 m.msg m.level) = none := by
      simp [writesTo, Ne.symm h1]
    rw [this, ih h2]

theorem row_filterMap_mem (a : String) (outs : List (String × AdapterInst))
    (m : LogMsgRec) (hnd : (outs.map Prod.fst).Nodup)
    (ha : a ∈ outs.map Prod.fst) :
    (outs.map fun o => Event.write o.1 m.msg m.level).filterMap (writesTo a)
      = [(m.msg, m.level)] := by
  induction outs with
  | nil => cases ha
  | cons o os ih =>
    rw [List.map_cons, List.nodup_cons] at hnd
    rw [List.map_cons, List.mem_cons] at ha
    rw [List.map_cons, List.filterMap_cons]
    by_cases he : o.1 = a
    · have hw : writesTo a (Event.write o.1 m.msg m.level)
          = some (m.msg, m.level) := by simp [writesTo, he]
      rw [hw, row_filterMap_notmem a os m (by rw [← he]; exact hnd.1)]
    · have hw : writesTo a (Event.write o.1 m.msg m.level) = none := by
        simp [writesTo, he]
      rw [hw]
      rcases ha with ha | ha
      · exact absurd ha.symm he
      · exact ih hnd.2 ha

theorem closeDrain_filterMap (a : String) (outs : List (String × AdapterInst))
    (q : List LogMsgRec) (hnd : (outs.map Prod.fst).Nodup)
    (ha : a ∈ outs.map Prod.fst) :
    (closeDrain outs q).filterMap (writesTo a)
      = q.map (fun m => (m.msg, m.level)) := by
  induction q with
  | nil => rfl
  | cons m q ih =>
    rw [closeDrain, List.filterMap_append, row_filterMap_mem a outs m hnd ha,
      ih, List.map_cons]
    rfl

theorem closeFinal_filterMap (a : String) (outs : List (String × AdapterInst)) :
    (closeFinal outs).filterMap (writesTo a) = [] := by
  induction outs with
  | nil => rfl
  | cons o os ih =>
    rw [closeFinal, List.filterMap_cons, List.filterMap_cons]
    have h1 : writesTo a (Event.flush o.1) = none := rfl
    have h2 : writesTo a (Event.destroy o.1) = none := rfl
    rw [h1, h2, ih]

theorem closeDrain_filter_life (a : String) (outs : List (String × AdapterInst))
    (q : List LogMsgRec) :
    (closeDrain outs q).filter (isLifeOf a) = [] := by
  rw [List.filter_eq_nil_iff]
  intro e he
  obtain ⟨a2, m2, l2, rfl⟩ := closeDrain_writes outs q e he
  simp [isLifeOf]

theorem closeFinal_filter_life_notmem (a : String)
    (outs : List (String × AdapterInst)) (h : a ∉ outs.map Prod.fst) :
    (closeFinal outs).filter (isLifeOf a) = [] := by
  induction outs with
  | nil => rfl
  | cons o os ih =>
    rw [List.map_cons, List.mem_cons] at h
    push_neg at h
    obtain ⟨h1, h2⟩ := h
    rw [closeFinal, List.filter_cons, List.filter_cons]
    have hf : isLifeOf a (Event.flush o.1) = false := by
      simp [isLifeOf, Ne.symm h1]
    have hd : isLifeOf a (Event.destroy o.1) = false := by
      simp [isLifeOf, Ne.symm h1]
    rw [hf, hd]
    simp only [Bool.false_eq_true, if_false]
    exact ih h2

theorem closeFinal_filter_life_mem (a : String)
    (outs : List (String × AdapterInst)) (hnd : (outs.map Prod.fst).Nodup)
    (ha : a ∈ outs.map Prod.fst) :
    (closeFinal outs).filter (isLifeOf a)
      = [Event.flush a, Event.destroy a] := by
  induction outs with
  | nil => cases ha
  | cons o os ih =>
    rw [List.map_cons, List.nodup_cons] at hnd
    rw [List.map_cons, List.mem_cons] at ha
    rw [closeFinal, List.filter_cons, List.filter_cons]
    by_cases he : o.1 = a
    · have hf : isLifeOf a (Event.flush o.1) = true := by simp [isLifeOf, he]
      have hd : isLifeOf a (Event.destroy o.1) = true := by simp [isLifeOf, he]
      rw [hf, hd]
      simp only [if_true]
      rw [closeFinal_filter_life_notmem a os (by rw [← he]; exact hnd.1), he]
    · have hf : isLifeOf a (Event.flush o.1) = false := by simp [isLifeOf, he]
      have hd : isLifeOf a (Event.destroy o.1) = false := by simp [isLifeOf, he]
      rw [hf, hd]
      simp only [Bool.false_eq_true, if_false]
      rcases ha with ha | ha
      · exact absurd ha.symm he
      · exact ih hnd.2 ha

/-- C2: on a Logger with any queue contents and active adapters (with
distinct names, as a Go map guarantees), Close empties the queue; for
every active adapter the sequence of write calls it receives is exactly
the queued messages in FIFO order (so no message enqueued before the
call is lost), and its lifecycle calls are exactly one flush followed by
one destroy; all write calls happen before any flush or destroy call. -/
theorem close_delivers_then_finalizes (s : LoggerState)
    (hnd : (s.outputs.map Prod.fst).Nodup) :
    (Close s).1.queue = []
    ∧ (∀ a, a ∈ s.outputs.map Prod.fst →
        ((Close s).2.filterMap (writesTo a)
            = s.queue.map (fun m => (m.msg, m.level))
          ∧ (Close s).2.filter (isLifeOf a)
            = [Event.flush a, Event.destroy a]))
    ∧ (∃ w f, (Close s).2 = w ++ f
        ∧ (∀ e ∈ w, ∃ a m l, e = Event.write a m l)
        ∧ (∀ e ∈ f, (∃ a, e = Event.flush a) ∨ (∃ a, e = Event.destroy a))) := by
  refine ⟨rfl, ?_, ?_⟩
  · intro a ha
    constructor
    · show (closeDrain s.outputs s.queue ++ closeFinal s.outputs).filterMap
        (writesTo a) = _
      rw [List.filterMap_append, closeDrain_filterMap a s.outputs s.queue hnd ha,
        closeFinal_filterMap, List.append_nil]
    · show (closeDrain s.outputs s.queue ++ closeFinal s.outputs).filter
        (isLifeOf a) = _
      rw [List.filter_append, closeDrain_filter_life,
        closeFinal_filter_life_mem a s.outputs hnd ha, List.nil_append]
  · exact ⟨closeDrain s.outputs s.queue, closeFinal s.outputs, rfl,
      closeDrain_writes s.outputs s.queue, closeFinal_life s.outputs⟩

/-- Witness for C2 at a concrete logger with two queued messages and two
adapters. -/
theorem close_delivers_then_finalizes_witness :
    (Close sampleCloseState).1.queue = []
    ∧ ((Close sampleCloseState).2.filterMap (writesTo "file")
        = sampleCloseState.queue.map (fun m => (m.msg, m.level))
      ∧ (Close sampleCloseState).2.filter (isLifeOf "file")
        = [Event.flush "file", Event.destroy "file"]) :=
  ⟨(close_delivers_then_finalizes sampleCloseState (by decide)).1,
    (close_delivers_then_finalizes sampleCloseState (by decide)).2.1
      "file" (by decide)⟩

theorem string_eq_of_data (a b : String) (h : a.data = b.data) : a = b := by
  cases a
  cases b
  cases h
  rfl

theorem sprintfChars_cons_ne (c : Char) (cs : List Char) (args : List Val)
    (hc : c ≠ '%') :
    sprintfChars (c :: cs) args = c :: sprintfChars cs args := by
  rw [sprintfChars.eq_def]
  split
  · rename_i heq
    injection heq with h1 h2
    exact absurd h1 hc
  · rename_i heq hguard
    injection heq with h1 h2
    rw [← h1, ← h2]
  · rename_i heq
    cases heq

theorem sprintfChars_no_pct (pre : List Char) (h : ('%' : Char) ∉ pre)
    (rest : List Char) (args : List Val) :
    sprintfChars (pre ++ rest) args = pre ++ sprintfChars rest args := by
  induction pre with
  | nil => rfl
  | cons c cs ih =>
    rw [List.mem_cons] at h
    push_neg at h
    obtain ⟨h1, h2⟩ := h
    rw [List.cons_append, sprintfChars_cons_ne c (cs ++ rest) args (Ne.symm h1),
      ih h2, List.cons_append]

theorem goReprList_eq_joinSpace (l : List Val) :
    goReprList l = joinSpace (l.map goRepr) := by
  induction l with
  | nil => rfl
  | cons x xs ih =>
    cases xs with
    | nil => rfl
    | cons y ys =>
      have h1 : goReprList (x :: y :: ys)
          = goRepr x ++ " " ++ goReprList (y :: ys) := rfl
      have h2 : joinSpace ((x :: y :: ys).map goRepr)
          = goRepr x ++ " " ++ joinSpace ((y :: ys).map goRepr) := rfl
      rw [h1, h2, ih]

theorem logBody_no_pct (tp : String) (htp : ('%' : Char) ∉ tp.data)
    (args : List Val) :
    logBody tp args
      = "[" ++ tp ++ "] " ++ "[" ++ joinSpace (args.map goRepr) ++ "]"
        ++ " " := by
  have hfmt : ("[" ++ tp ++ "] " ++ generateFmtStr 1).data
      = ("[" ++ tp ++ "] ").data ++ ['%', 'v', ' '] := by
    rw [String.data_append ("[" ++ tp ++ "] ") (generateFmtStr 1)]
    have h : (generateFmtStr 1).data = ['%', 'v', ' '] := by decide
    rw [h]
  have hpre : ('%' : Char) ∉ ("[" ++ tp ++ "] ").data := by
    rw [String.data_append ("[" ++ tp) "] ", String.data_append "[" tp]
    intro hmem
    rw [List.mem_append, List.mem_append] at hmem
    rcases hmem with (hmem | hmem) | hmem
    · revert hmem; decide
    · exact htp hmem
    · revert hmem; decide
  have hrepr : goRepr (Val.seq args)
      = "[" ++ joinSpace (args.map goRepr) ++ "]" := by
    show "[" ++ goReprList args ++ "]" = _
    rw [goReprList_eq_joinSpace]
  apply string_eq_of_data
  show sprintfChars ("[" ++ tp ++ "] " ++ generateFmtStr 1).data
    [Val.seq args] = _
  rw [hfmt, sprintfChars_no_pct _ hpre]
  have hverb : sprintfChars ['%', 'v', ' '] [Val.seq args]
      = (goRepr (Val.seq args)).data ++ [' '] := rfl
  rw [hverb, hrepr]
  simp [String.data_append, List.append_assoc,
    show ("[" : String).data = ['['] from rfl,
    show ("]" : String).data = [']'] from rfl,
    show (" " : String).data = [' '] from rfl,
    show ("] " : String).data = [']', ' '] from rfl]

/-- C3 counterexample: at level Error with the single argument x, the
rendered body carries the argument list wrapped in an extra pair of
square brackets and a trailing space, so it differs from the bracketed
tag followed by the space-joined arguments that the claim states. -/
theorem logBody_ne_spec_render :
    logBody "Error" [Val.atom false "" "x"]
      ≠ specRenderBody "Error" [Val.atom false "" "x"] := by
  decide

/-- C3 amended: for each of the four level tags, the rendered message
body is the bracketed tag, a space, and then the default textual
representation of the whole argument list as one value, that is, the
argument representations joined with single spaces and enclosed in
square brackets, followed by a trailing space.  (The emit methods pass
their variadic slice to log as a single value, so the format string
holds exactly one verb which prints the entire slice.) -/
theorem logBody_actual (tp : String)
    (htp : tp ∈ (["Error", "Warn", "Info", "Debug"] : List String))
    (args : List Val) :
    logBody tp args
      = "[" ++ tp ++ "] " ++ "[" ++ joinSpace (args.map goRepr) ++ "]"
        ++ " " := by
  apply logBody_no_pct
  fin_cases htp <;> decide

/-- Witness for C3 amended at the Error tag with one argument. -/
theorem logBody_actual_witness :
    logBody "Error" [Val.atom false "" "x"]
      = "[" ++ "Error" ++ "] " ++ "["
        ++ joinSpace ([Val.atom false "" "x"].map goRepr) ++ "]" ++ " " :=
  logBody_actual "Error" (by decide) [Val.atom false "" "x"]

theorem specFirstErr_none_not_err (v : Val) (h : specFirstErr v = none) :
    isErrCode v = false := by
  cases v with
  | atom e t r =>
    cases e
    · rfl
    · have hx : specFirstErr (Val.atom true t r)
          = some (Val.atom true t r) := rfl
      rw [hx] at h
      cases h
  | seq l => rfl

mutual
theorem rotate_firstErr (v : Val) :
    (∀ e, specFirstErr v = some e → rotate v = e ∧ isErrCode e = true)
    ∧ (specFirstErr v = none → isErrCode (rotate v) = false) := by
  cases v with
  | atom b t r =>
    constructor
    · intro e he
      cases b
      · cases he
      · have hx : specFirstErr (Val.atom true t r)
            = some (Val.atom true t r) := rfl
        rw [hx] at he
        injection he with he2
        rw [← he2]
        exact ⟨rfl, rfl⟩
    · intro hn
      cases b
      · rfl
      · have hx : specFirstErr (Val.atom true t r)
            = some (Val.atom true t r) := rfl
        rw [hx] at hn
        cases hn
  | seq l =>
    exact rotateSeq_firstErr (Val.seq l) l rfl

theorem rotateSeq_firstErr (cur : Val) (l : List Val)
    (hcur : isErrCode cur = false) :
    (∀ e, specFirstErrList l = some e → rotateSeq cur l = e ∧ isErrCode e = true)
    ∧ (specFirstErrList l = none → isErrCode (rotateSeq cur l) = false) := by
  cases l with
  | nil =>
    constructor
    · intro e he
      cases he
    · intro _
      exact hcur
  | cons x xs =>
    have hsl : specFirstErrList (x :: xs)
        = match specFirstErr x with
          | some e => some e
          | none => specFirstErrList xs := rfl
    have hrs : rotateSeq cur (x :: xs)
        = if isErrCode (rotate x) then rotate x else rotateSeq x xs := rfl
    constructor
    · intro e he
      rw [hsl] at he
      cases hfx : specFirstErr x with
      | some ex =>
        rw [hfx] at he
        have he2 : some ex = some e := he
        injection he2 with he3
        subst he3
        have hrx := (rotate_firstErr x).1 ex hfx
        rw [hrs, hrx.1]
        exact ⟨by simp [hrx.2], hrx.2⟩
      | none =>
        rw [hfx] at he
        have he2 : specFirstErrList xs = some e := he
        have hnx := (rotate_firstErr x).2 hfx
        rw [hrs, hnx]
        simp only [Bool.false_eq_true, if_false]
        exact (rotateSeq_firstErr x xs (specFirstErr_none_not_err x hfx)).1 e he2
    · intro hn
      rw [hsl] at hn
      cases hfx : specFirstErr x with
      | some ex =>
        rw [hfx] at hn
        cases hn
      | none =>
        rw [hfx] at hn
        have hn2 : specFirstErrList xs = none := hn
        have hnx := (rotate_firstErr x).2 hfx
        rw [hrs, hnx]
        simp only [Bool.false_eq_true, if_false]
        exact (rotateSeq_firstErr x xs (specFirstErr_none_not_err x hfx)).2 hn2
end

/-- C8: the structured-error extraction searches the variadic argument
list depth-first, descending into nested sequences in order; when no
element exposes the ErrCode capability the rendered message equals the
plain body, and when a first such element exists (with a non-empty stack
trace) exactly its stack trace is appended to the body on a new line,
even if further such elements exist. -/
theorem log_stack_extraction (tp : String) (args : List Val) :
    (specFirstErrList args = none → logRender tp args = logBody tp args)
    ∧ (∀ e, specFirstErrList args = some e → stackTraceOf e ≠ "" →
        logRender tp args = logBody tp args ++ "\n" ++ stackTraceOf e) := by
  have hrot : rotate (Val.seq [Val.seq args])
      = rotateSeq (Val.seq [Val.seq args]) [Val.seq args] := rfl
  have hkey := rotateSeq_firstErr (Val.seq [Val.seq args]) [Val.seq args] rfl
  have hsl : specFirstErrList [Val.seq args]
      = match specFirstErrList args with
        | some e => some e
        | none => none := rfl
  constructor
  · intro hn
    have hn2 : specFirstErrList [Val.seq args] = none := by
      rw [hsl, hn]
    have hne := hkey.2 hn2
    rw [← hrot] at hne
    have hstack : handleError (rotate (Val.seq [Val.seq args])) = "" := by
      unfold handleError
      rw [hne]
      simp
    unfold logRender
    rw [hstack]
    simp
  · intro e he htr
    have he2 : specFirstErrList [Val.seq args] = some e := by
      rw [hsl, he]
    have hre := hkey.1 e he2
    rw [← hrot] at hre
    have hstack : handleError (rotate (Val.seq [Val.seq args]))
        = stackTraceOf e := by
      unfold handleError
      rw [hre.1, hre.2]
      simp
    unfold logRender
    rw [hstack]
    simp [htr]

/-- Witness for C8: a single ErrCode argument gets its stack trace
appended, and a plain argument leaves the message unchanged. -/
theorem log_stack_extraction_witness :
    logRender "Error" [Val.atom true "TRACE" "e"]
      = logBody "Error" [Val.atom true "TRACE" "e"] ++ "\n" ++ "TRACE"
    ∧ logRender "Info" [Val.atom false "" "x"]
      = logBody "Info" [Val.atom false "" "x"] := by
  constructor
  · have h := (log_stack_extraction "Error" [Val.atom true "TRACE" "e"]).2
      (Val.atom true "TRACE" "e") rfl (by decide)
    exact h
  · exact (log_stack_extraction "Info" [Val.atom false "" "x"]).1 rfl

end Logs
